import Mathlib

/-!
# Person CRUD service (`main.go`): a shallow embedding

The service is four fiber handlers over one MongoDB collection.  The handlers
are translated statement by statement from `main.go`.  The libraries they call
(fiber's `Ctx`, `encoding/json`, the MongoDB driver and server) are not part of
the repository; they are modelled here by small executable definitions, each
documented with the library behaviour it stands for:

* a collection is the list of its documents, in natural order;
* a document (`bson.M`) is an association list from field names to values;
* a request is served in an environment `Env` that fixes what the database
  reports during that request (connect, ping and operation errors) and the
  object identifier the driver generates for an insert;
* a handler ends in one of three ways (`Exit`): it returns, the process is
  terminated by `log.Fatal`, or it panics.
-/

namespace PersonApi

/-! ## Constants of `main.go` -/

def dbName : String := "personsdb"
def collectionName : String := "person"
def port : Nat := 8000
def mogodbUri : String := "mongodb://localhost:27011"
def ststusError : Nat := 500
def ststusErrorMiss : Nat := 404

/-! ## `primitive.ObjectID` and `encoding/hex` -/

/-- A `primitive.ObjectID`, Go type `[12]byte`. -/
structure ObjectID where
  bytes : List (Fin 256)
  len : bytes.length = 12
deriving DecidableEq

/-- The zero value `primitive.NilObjectID`. -/
def NilObjectID : ObjectID := ⟨List.replicate 12 0, by decide⟩

/-- The digit table of `encoding/hex`: `"0123456789abcdef"`. -/
def hextable : List Char := "0123456789abcdef".data

def hexDigit (n : Fin 16) : Char := hextable.getD n.val '0'

/-- The function `fromHexChar` of `encoding/hex`: both letter cases are digits. -/
def fromHexChar (c : Char) : Option (Fin 16) :=
  if '0'.toNat ≤ c.toNat ∧ c.toNat ≤ '9'.toNat then some (Fin.ofNat (c.toNat - '0'.toNat))
  else if 'a'.toNat ≤ c.toNat ∧ c.toNat ≤ 'f'.toNat then some (Fin.ofNat (c.toNat - 'a'.toNat + 10))
  else if 'A'.toNat ≤ c.toNat ∧ c.toNat ≤ 'F'.toNat then some (Fin.ofNat (c.toNat - 'A'.toNat + 10))
  else none

/-- The two digits `hextable[v>>4]`, `hextable[v&0x0f]` of a byte. -/
def encodeByte (v : Fin 256) : List Char :=
  [hexDigit ⟨v.val / 16, by omega⟩, hexDigit ⟨v.val % 16, by omega⟩]

/-- The function `hex.EncodeToString`, as the list of characters it produces. -/
def hexEncode (src : List (Fin 256)) : List Char := src.flatMap encodeByte

/-- The function `hex.Decode`: digits are read in pairs `(a << 4) | b`; an odd
length or a character that is no hex digit is an error (`none`).  Go decodes
bytes; a character outside ASCII is a run of bytes none of which is a digit,
so it fails here exactly as it fails there. -/
def hexDecode : List Char → Option (List (Fin 256))
  | [] => some []
  | [_] => none
  | p :: q :: rest =>
    match fromHexChar p, fromHexChar q, hexDecode rest with
    | some a, some b, some bs => some (⟨a.val * 16 + b.val, by omega⟩ :: bs)
    | _, _, _ => none

/-- The method `ObjectID.Hex`. -/
def ObjectID.Hex (id : ObjectID) : String := String.mk (hexEncode id.bytes)

def ErrInvalidHex : String := "the provided hex string is not a valid ObjectID"

/-- The function `primitive.ObjectIDFromHex`: the identifier and the error.
On every error the identifier returned is `NilObjectID`.  `len(s)` is the
length in bytes. -/
def primitive.ObjectIDFromHex (s : String) : ObjectID × Option String :=
  if s.utf8ByteSize ≠ 24 then (NilObjectID, some ErrInvalidHex)
  else
    match hexDecode s.data with
    | none => (NilObjectID, some "encoding/hex: invalid byte")
    | some b => if h : b.length = 12 then (⟨b, h⟩, none) else (NilObjectID, some ErrInvalidHex)

/-! ## BSON values and documents -/

/-- The BSON values the model distinguishes.  `int` stands for both int32 and
int64 (the driver writes a Go `int` as int32 when it fits, else int64). -/
inductive Value where
  | objectID (o : ObjectID)
  | str (s : String)
  | int (i : Int)
  | bool (b : Bool)
  | null
deriving DecidableEq

/-- The type `bson.M`, a document: field names with their values.  Field names
of one document are meant to be distinct, as the keys of a Go map are. -/
abbrev bson.M := List (String × Value)

/-- The contents of the collection `personsdb.person`. -/
abbrev Collection := List bson.M

/-- Whether a document satisfies an equality filter: every field the filter
names is present with that value.  The empty filter matches every document. -/
def filterMatches (filter : bson.M) (d : bson.M) : Bool :=
  filter.all fun kv => d.lookup kv.1 == some kv.2

/-! ## JSON -/

/-- A JSON value.  `int` is a number written as an integer literal, `float` any
other number literal (kept as its text). -/
inductive Json where
  | null
  | bool (b : Bool)
  | int (i : Int)
  | float (lit : String)
  | str (s : String)
  | arr (items : List Json)
  | obj (members : List (String × Json))

/-- Go's `<` on strings is bytewise; on UTF-8 that is the order of the code
points. -/
def runesLE : List Nat → List Nat → Bool
  | [], _ => true
  | _ :: _, [] => false
  | a :: as, b :: bs => a < b || (a == b && runesLE as bs)

def keyLE (a b : String) : Bool := runesLE (a.data.map Char.toNat) (b.data.map Char.toNat)

def insertKey (p : String × Json) : List (String × Json) → List (String × Json)
  | [] => [p]
  | q :: rest => if keyLE p.1 q.1 then p :: q :: rest else q :: insertKey p rest

/-- The function `encoding/json` applies to a map: members are written sorted by key. -/
def sortKeys : List (String × Json) → List (String × Json)
  | [] => []
  | p :: rest => insertKey p (sortKeys rest)

/-- How `json.Marshal` writes a BSON value read back from the store: an
`ObjectID` marshals as its hex string. -/
def Value.toJson : Value → Json
  | .objectID o => .str o.Hex
  | .str s => .str s
  | .int i => .int i
  | .bool b => .bool b
  | .null => .null

/-- The JSON written for one `bson.M`. -/
def marshalM (d : bson.M) : Json := .obj (sortKeys (d.map fun kv => (kv.1, kv.2.toJson)))

/-- The member of a JSON object under a key. -/
def Json.field (j : Json) (key : String) : Option Json :=
  match j with
  | .obj members => members.lookup key
  | _ => none

/-! ## `Person` and `encoding/json` -/

/-- The struct `Person`.  Its tags are written with typographic quotes, so
neither `encoding/json` nor the BSON codec reads any of them: the JSON names
are the Go field names, the BSON names the lower-cased field names, and no
field is `omitempty`.  The field `_id` is unexported: both codecs skip it. -/
structure Person where
  _id : String := ""
  FirstName : String := ""
  LastName : String := ""
  Email : String := ""
  Age : Int := 0
deriving DecidableEq

/-- The exported fields of `Person`, the only ones the codecs see. -/
inductive Field where
  | FirstName | LastName | Email | Age
deriving DecidableEq

def Field.name : Field → String
  | .FirstName => "FirstName"
  | .LastName => "LastName"
  | .Email => "Email"
  | .Age => "Age"

def Field.all : List Field := [.FirstName, .LastName, .Email, .Age]

/-- Simple case folding as far as it can reach an ASCII letter: upper case to
lower case, U+017F (long s) to `s`, U+212A (Kelvin sign) to `k`. -/
def foldRune (c : Char) : Char :=
  if 'A'.toNat ≤ c.toNat ∧ c.toNat ≤ 'Z'.toNat then Char.ofNat (c.toNat + 32)
  else if c.toNat = 0x17F then 's'
  else if c.toNat = 0x212A then 'k'
  else c

/-- The comparison `encoding/json` uses for a key that is not a field name
letter for letter: equality under case folding. -/
def equalFold (a b : String) : Bool := a.data.map foldRune == b.data.map foldRune

/-- The field `encoding/json` decodes an object key into: the one with exactly
that name, else the first whose name equals the key under folding. -/
def findField (key : String) : Option Field :=
  match Field.all.find? fun f => f.name == key with
  | some f => some f
  | none => Field.all.find? fun f => equalFold f.name key

/-- The word `encoding/json` uses for a value in an `UnmarshalTypeError`. -/
def Json.kind : Json → String
  | .null => "null"
  | .bool _ => "bool"
  | .int _ => "number"
  | .float _ => "number"
  | .str _ => "string"
  | .arr _ => "array"
  | .obj _ => "object"

/-- The text of an `UnmarshalTypeError` for a struct field. -/
def typeError (value : String) (f : Field) (ty : String) : String :=
  "json: cannot unmarshal " ++ value ++ " into Go struct field Person." ++ f.name ++
    " of type " ++ ty

/-- Whether an integer fits Go's `int` (64 bits). -/
def fitsInt (i : Int) : Bool := decide (-(2 : Int) ^ 63 ≤ i) && decide (i < (2 : Int) ^ 63)

/-- Decoding one member into its field: `null` leaves the field alone, a value
of the right type is stored, any other value leaves the field alone and reports
an `UnmarshalTypeError`. -/
def decodeField (f : Field) (v : Json) (p : Person) : Person × Option String :=
  match f, v with
  | _, .null => (p, none)
  | .FirstName, .str s => ({ p with FirstName := s }, none)
  | .LastName, .str s => ({ p with LastName := s }, none)
  | .Email, .str s => ({ p with Email := s }, none)
  | .Age, .int i =>
    if fitsInt i then ({ p with Age := i }, none)
    else (p, some (typeError ("number " ++ toString i) f "int"))
  | .Age, .float lit => (p, some (typeError ("number " ++ lit) f "int"))
  | .Age, _ => (p, some (typeError v.kind f "int"))
  | _, _ => (p, some (typeError v.kind f "string"))

/-- Decoding the members of an object in order; keys naming no field are
skipped, decoding goes on after a type error, and the first error is the one
reported. -/
def decodeObject : List (String × Json) → Person → Option String → Person × Option String
  | [], p, e => (p, e)
  | (k, v) :: rest, p, e =>
    match findField k with
    | none => decodeObject rest p e
    | some f => decodeObject rest (decodeField f v p).1 (e <|> (decodeField f v p).2)

/-- A request body as `encoding/json` sees it: either text that is not JSON
(with the message of the `SyntaxError`), or the JSON value it spells. -/
inductive ReqBody where
  | invalid (msg : String)
  | valid (j : Json)

/-- The call `json.Unmarshal(data, &person)`: the record afterwards and the
error.  Invalid JSON is detected before anything is stored; `null` stores
nothing; a value that is no object is a type error. -/
def json.Unmarshal (data : ReqBody) (person : Person) : Person × Option String :=
  match data with
  | .invalid msg => (person, some msg)
  | .valid .null => (person, none)
  | .valid (.obj members) => decodeObject members person none
  | .valid v =>
    (person, some ("json: cannot unmarshal " ++ v.kind ++ " into Go value of type main.Person"))

/-- The document the BSON codec writes for a `Person`: the four exported
fields under their lower-cased names, none omitted. -/
def Person.toBson (p : Person) : bson.M :=
  [("firstname", .str p.FirstName), ("lastname", .str p.LastName), ("email", .str p.Email),
    ("age", .int p.Age)]

/-! ## The database -/

/-- What the database does during one request. -/
structure Env where
  /-- the error of `mongo.Connect`, if it fails -/
  connectErr : Option String := none
  /-- the error of `client.Ping`, if it fails -/
  pingErr : Option String := none
  /-- the error the operation (`Find`, `InsertOne`, `UpdateOne`, `DeleteOne`)
  reports for a reason of its own (network, server), if it does -/
  opErr : Option String := none
  /-- the value of `primitive.NewObjectID()` during this request -/
  newID : ObjectID := NilObjectID

/-- A call that either comes back or ends the process through `log.Fatal`. -/
inductive Run (α : Type) where
  | ok (a : α)
  | fatal (msg : String)

/-- A cursor: the documents it still has to deliver. -/
abbrev Cursor := List bson.M

/-- The method `Collection.Find`: on error the cursor is `nil`. -/
def Collection.Find (env : Env) (coll : Collection) (filter : bson.M) :
    Option Cursor × Option String :=
  match env.opErr with
  | some e => (none, some e)
  | none => (some (coll.filter (filterMatches filter)), none)

/-- The method `Cursor.All` on a `nil` slice: the slice stays `nil` (`none`)
when the cursor delivers nothing. -/
def Cursor.All (cur : Cursor) : Option (List bson.M) :=
  if cur.isEmpty then none else some cur

structure InsertOneResult where
  InsertedID : Value

structure UpdateResult where
  MatchedCount : Nat
  ModifiedCount : Nat
  UpsertedCount : Nat
  UpsertedID : Option Value

structure DeleteResult where
  DeletedCount : Nat

/-- The driver puts `_id` first in the document it sends; one that has none
gets a generated `ObjectID`. -/
def ensureID (newID : ObjectID) (document : bson.M) : bson.M × Value :=
  match document.lookup "_id" with
  | some id => (("_id", id) :: document.filter (fun kv => kv.1 != "_id"), id)
  | none => (("_id", .objectID newID) :: document, .objectID newID)

def duplicateKey : String := "E11000 duplicate key error"

/-- The method `Collection.InsertOne`: the collection afterwards, the result
and the error.  The server refuses a document whose `_id` a stored document
already has. -/
def Collection.InsertOne (env : Env) (coll : Collection) (document : bson.M) :
    Collection × Option InsertOneResult × Option String :=
  match env.opErr with
  | some e => (coll, none, some e)
  | none =>
    if coll.any (fun d => d.lookup "_id" == some (ensureID env.newID document).2) then
      (coll, none, some duplicateKey)
    else
      (coll ++ [(ensureID env.newID document).1], some ⟨(ensureID env.newID document).2⟩, none)

/-- One field of a `$set`: the value replaces the one stored, or the field is added. -/
def setField (k : String) (v : Value) : bson.M → bson.M
  | [] => [(k, v)]
  | kv :: rest => if kv.1 = k then (k, v) :: rest else kv :: setField k v rest

/-- The operator `$set` on one document. -/
def applySet (set : bson.M) (d : bson.M) : bson.M :=
  set.foldl (fun acc kv => setField kv.1 kv.2 acc) d

def updateFirst (filter set : bson.M) : Collection → Collection
  | [] => []
  | d :: rest =>
    if filterMatches filter d then applySet set d :: rest else d :: updateFirst filter set rest

/-- The method `Collection.UpdateOne` with the update `bson.M{"$set": set}`: the
first matching document is updated; nothing is upserted.  That the server
refuses a `$set` naming `_id` is not modelled. -/
def Collection.UpdateOne (env : Env) (coll : Collection) (filter set : bson.M) :
    Collection × Option UpdateResult × Option String :=
  match env.opErr with
  | some e => (coll, none, some e)
  | none =>
    (updateFirst filter set coll,
      some ⟨if coll.any (filterMatches filter) then 1 else 0,
        if updateFirst filter set coll = coll then 0 else 1, 0, none⟩,
      none)

def deleteFirst (filter : bson.M) : Collection → Collection
  | [] => []
  | d :: rest => if filterMatches filter d then rest else d :: deleteFirst filter rest

/-- The method `Collection.DeleteOne`: the first matching document is removed. -/
def Collection.DeleteOne (env : Env) (coll : Collection) (filter : bson.M) :
    Collection × Option DeleteResult × Option String :=
  match env.opErr with
  | some e => (coll, none, some e)
  | none => (deleteFirst filter coll, some ⟨if coll.any (filterMatches filter) then 1 else 0⟩, none)

/-- The values the handlers pass to `json.Marshal`; the three results are
pointers, `none` being `nil`. -/
inductive Marshalable where
  | results (r : List bson.M)
  | insertOne (r : Option InsertOneResult)
  | update (r : Option UpdateResult)
  | delete (r : Option DeleteResult)

/-- The function `json.Marshal`, as the JSON value whose text it returns.  The
result structs have no tags, so their members carry the Go field names; a
`nil` pointer is written `null`. -/
def json.Marshal : Marshalable → Json
  | .results r => .arr (r.map marshalM)
  | .insertOne (some r) => .obj [("InsertedID", r.InsertedID.toJson)]
  | .update (some r) =>
    .obj [("MatchedCount", .int r.MatchedCount), ("ModifiedCount", .int r.ModifiedCount),
      ("UpsertedCount", .int r.UpsertedCount),
      ("UpsertedID", match r.UpsertedID with | some v => v.toJson | none => .null)]
  | .delete (some r) => .obj [("DeletedCount", .int r.DeletedCount)]
  | _ => .null

/-! ## fiber -/

/-- A response body: text sent as is, or the text of a JSON value. -/
inductive RespBody where
  | text (s : String)
  | json (j : Json)

/-- The part of `fiber.Ctx` the handlers use: the route parameter `id` (empty
when the route has none), the request body, and the response being built
(status 200 and an empty body until the handler says otherwise). -/
structure Ctx where
  id : String
  reqBody : ReqBody
  status : Nat := 200
  body : RespBody := .text ""

def Ctx.Params (c : Ctx) (key : String) : String := if key = "id" then c.id else ""

def Ctx.Body (c : Ctx) : ReqBody := c.reqBody

def Ctx.Status (c : Ctx) (status : Nat) : Ctx := { c with status := status }

/-- The method `Ctx.Send`: the body is replaced.  An `error` is sent as its
text, a byte slice as it is. -/
def Ctx.Send (c : Ctx) (body : RespBody) : Ctx := { c with body := body }

/-- The status text of `fasthttp.StatusMessage`, for the codes of this service. -/
def statusMessage (status : Nat) : String :=
  if status = 200 then "OK"
  else if status = 404 then "Not Found"
  else if status = 500 then "Internal Server Error"
  else "Unknown Status Code"

/-- The method `Ctx.SendStatus`: the status is set, and an empty body becomes the
status text. -/
def Ctx.SendStatus (c : Ctx) (status : Nat) : Ctx :=
  match c.body with
  | .text "" => { c with status := status, body := .text (statusMessage status) }
  | _ => { c with status := status }

/-! ## The handlers of `main.go` -/

/-- How a handler ends. -/
inductive Exit where
  /-- the handler returned: fiber writes the response held by the context -/
  | returned
  /-- `log.Fatal`: the message is logged and the process exits, no response is written -/
  | fatal (msg : String)
  /-- a run-time panic (nil pointer dereference) -/
  | panicked
deriving DecidableEq

/-- The outcome of one request: the context, the collection and the way the
handler ended. -/
structure Result where
  ctx : Ctx
  coll : Collection
  exit : Exit

/-- The function `getMongoDbConnection`: both errors end in `log.Fatal`, so the
error returned is always `nil`.  The client is the server it is connected to,
here the one collection. -/
def getMongoDbConnection (env : Env) (server : Collection) : Run (Collection × Option String) :=
  match env.connectErr with
  | some err => .fatal err
  | none =>
    match env.pingErr with
    | some err => .fatal err
    | none => .ok (server, none)

/-- The function `getMongoDbCollection`. -/
def getMongoDbCollection (env : Env) (server : Collection) (_DbName _CollectionName : String) :
    Run (Collection × Option String) :=
  match getMongoDbConnection env server with
  | .fatal msg => .fatal msg
  | .ok (client, some err) => .ok (client, some err)
  | .ok (client, none) => .ok (client, none)

/-- The deferred `cur.Close(...)`: on a `nil` cursor it dereferences `nil`. -/
def deferredClose (cur : Option Cursor) : Exit :=
  match cur with
  | none => .panicked
  | some _ => .returned

/-- The handler `getPerson`. -/
def getPerson (env : Env) (server : Collection) (c : Ctx) : Result :=
  match getMongoDbCollection env server dbName collectionName with
  | .fatal msg => ⟨c, server, .fatal msg⟩
  | .ok (_, some err) => ⟨(c.Status ststusError).Send (.text err), server, .returned⟩
  | .ok (collection, none) =>
    let filter : bson.M :=
      if c.Params "id" ≠ "" then
        [("_id", .objectID (primitive.ObjectIDFromHex (c.Params "id")).1)]
      else []
    match Collection.Find env collection filter with
    | (cur, some err) => ⟨(c.Status ststusError).Send (.text err), server, deferredClose cur⟩
    | (none, none) => ⟨c, server, .panicked⟩
    | (some cur, none) =>
      match cur.All with
      | none => ⟨c.SendStatus ststusErrorMiss, server, .returned⟩
      | some results => ⟨c.Send (.json (json.Marshal (.results results))), server, .returned⟩

/-- The handler `createPerson`.  The error of `json.Unmarshal` is dropped. -/
def createPerson (env : Env) (server : Collection) (c : Ctx) : Result :=
  match getMongoDbCollection env server dbName collectionName with
  | .fatal msg => ⟨c, server, .fatal msg⟩
  | .ok (_, some err) => ⟨(c.Status ststusError).Send (.text err), server, .returned⟩
  | .ok (collection, none) =>
    let person : Person := (json.Unmarshal c.Body {}).1
    match Collection.InsertOne env collection person.toBson with
    | (coll, _, some err) => ⟨(c.Status ststusError).Send (.text err), coll, .returned⟩
    | (coll, res, none) => ⟨c.Send (.json (json.Marshal (.insertOne res))), coll, .returned⟩

/-- The handler `updatePerson`.  The errors of `json.Unmarshal` and of
`primitive.ObjectIDFromHex` are dropped. -/
def updatePerson (env : Env) (server : Collection) (c : Ctx) : Result :=
  match getMongoDbCollection env server dbName collectionName with
  | .fatal msg => ⟨c, server, .fatal msg⟩
  | .ok (_, some err) => ⟨(c.Status ststusError).Send (.text err), server, .returned⟩
  | .ok (collection, none) =>
    let person : Person := (json.Unmarshal c.Body {}).1
    let update : bson.M := person.toBson
    let objID := (primitive.ObjectIDFromHex (c.Params "id")).1
    match Collection.UpdateOne env collection [("_id", .objectID objID)] update with
    | (coll, _, some err) => ⟨(c.Status ststusError).Send (.text err), coll, .returned⟩
    | (coll, res, none) => ⟨c.Send (.json (json.Marshal (.update res))), coll, .returned⟩

/-- The handler `deletePerson`.  The error of `primitive.ObjectIDFromHex` is dropped. -/
def deletePerson (env : Env) (server : Collection) (c : Ctx) : Result :=
  match getMongoDbCollection env server dbName collectionName with
  | .fatal msg => ⟨c, server, .fatal msg⟩
  | .ok (_, some err) => ⟨(c.Status ststusError).Send (.text err), server, .returned⟩
  | .ok (collection, none) =>
    let objID := (primitive.ObjectIDFromHex (c.Params "id")).1
    match Collection.DeleteOne env collection [("_id", .objectID objID)] with
    | (coll, _, some err) => ⟨(c.Status ststusError).Send (.text err), coll, .returned⟩
    | (coll, res, none) => ⟨c.Send (.json (json.Marshal (.delete res))), coll, .returned⟩

/-! ## Notions used by the statements -/

/-- The database reports no error during the request. -/
def Env.quiet (env : Env) : Prop := env.connectErr = none ∧ env.pingErr = none ∧ env.opErr = none

instance (env : Env) : Decidable env.quiet := by unfold Env.quiet; infer_instance

/-- A request with the given route parameter and body. -/
def request (id : String) (body : ReqBody) : Ctx := { id := id, reqBody := body }

/-- The request body `{"FirstName":fn,"LastName":ln,"Email":em,"Age":age}`. -/
def personBody (fn ln em : String) (age : Int) : ReqBody :=
  .valid (.obj [("FirstName", .str fn), ("LastName", .str ln), ("Email", .str em), ("Age", .int age)])

/-- The filter `getPerson` builds from the route parameter: by `_id` when the
parameter is not empty (a parameter that is no object identifier gives
`NilObjectID`), else the empty filter. -/
def pathFilter (id : String) : bson.M :=
  if id ≠ "" then [("_id", .objectID (primitive.ObjectIDFromHex id).1)] else []

/-- The body of a request that has none: to `encoding/json` it is not JSON. -/
def noBody : ReqBody := .invalid "unexpected end of JSON input"

/-- The object identifier `0102030405060708090aabff`, for examples. -/
def sampleID : ObjectID := ⟨[1, 2, 3, 4, 5, 6, 7, 8, 9, 10, 171, 255], by decide⟩

/-- The person `Ann Lee`, for examples. -/
def samplePerson : Person := ⟨"", "Ann", "Lee", "a@x.com", 30⟩

/-- A stored person carrying `sampleID`, for examples. -/
def sampleDoc : bson.M :=
  [("_id", .objectID sampleID), ("firstname", .str "Ann"), ("lastname", .str "Lee"),
    ("email", .str "a@x.com"), ("age", .int 30)]

/-- The invariant MongoDB keeps on a collection: no two documents have the same `_id`. -/
def uniqueIds (coll : Collection) : Prop :=
  coll.Pairwise fun a b => a.lookup "_id" ≠ b.lookup "_id"

instance (coll : Collection) : Decidable (uniqueIds coll) := by unfold uniqueIds; infer_instance

/-- The name the BSON codec gives a field: the Go name in lower case. -/
def Field.key : Field → String
  | .FirstName => "firstname"
  | .LastName => "lastname"
  | .Email => "email"
  | .Age => "age"

/-- The value of a field of a `Person`, as the BSON codec writes it. -/
def Person.get (p : Person) : Field → Value
  | .FirstName => .str p.FirstName
  | .LastName => .str p.LastName
  | .Email => .str p.Email
  | .Age => .int p.Age

/-- A body specifies a field when it is a JSON object one of whose keys
`encoding/json` decodes into that field. -/
def specifies (body : ReqBody) (f : Field) : Prop :=
  ∃ members, body = .valid (.obj members) ∧ ∃ kv ∈ members, findField kv.1 = some f

/-- One call in a history of creations and deletions, with the environment it runs in. -/
inductive Call where
  | create (env : Env) (body : ReqBody)
  | delete (env : Env) (id : String)

/-- Serving one call: `POST /person` with the body, or `DELETE /person/:id`. -/
def Call.serve (server : Collection) : Call → Result
  | .create env body => createPerson env server (request "" body)
  | .delete env id => deletePerson env server (request id noBody)

/-- A call is successful when the handler returns and the status is 200. -/
def Result.ok (r : Result) : Bool := decide (r.exit = .returned) && r.ctx.status == 200

/-- Serving a history from a collection: the collection at the end when every
call was successful, `none` as soon as one is not. -/
def serveAll : List Call → Collection → Option Collection
  | [], server => some server
  | call :: rest, server =>
    if (call.serve server).ok then serveAll rest (call.serve server).coll else none

/-- The records created and not since deleted, read off the history alone: a
creation adds the record parsed from its body under the identifier generated
for it, a deletion removes the record under the identifier parsed from its
path parameter. -/
def live : List (ObjectID × Person) → List Call → List (ObjectID × Person)
  | ledger, [] => ledger
  | ledger, .create env body :: rest => live (ledger ++ [(env.newID, (json.Unmarshal body {}).1)]) rest
  | ledger, .delete _ id :: rest =>
    live (ledger.filter fun r => r.1 ≠ (primitive.ObjectIDFromHex id).1) rest

/-- The JSON document `getPerson` writes for a person record. -/
def recordJson (r : ObjectID × Person) : Json :=
  .obj [("_id", .str r.1.Hex), ("age", .int r.2.Age), ("email", .str r.2.Email),
    ("firstname", .str r.2.FirstName), ("lastname", .str r.2.LastName)]

/-- The stored document of a person record. -/
def recordDoc (r : ObjectID × Person) : bson.M := ("_id", .objectID r.1) :: r.2.toBson

/-! ## Hex round trip -/

theorem fromHexChar_hexDigit (n : Fin 16) : fromHexChar (hexDigit n) = some n := by
  revert n; decide

theorem utf8Size_hexDigit (n : Fin 16) : (hexDigit n).utf8Size = 1 := by
  revert n; decide

theorem hexDecode_hexEncode (bs : List (Fin 256)) : hexDecode (hexEncode bs) = some bs := by
  induction bs with
  | nil => rfl
  | cons b rest ih =>
    have hrest : hexEncode (b :: rest) =
        hexDigit ⟨b.val / 16, by omega⟩ :: hexDigit ⟨b.val % 16, by omega⟩ :: hexEncode rest := by
      simp [hexEncode, encodeByte]
    rw [hrest, hexDecode, fromHexChar_hexDigit, fromHexChar_hexDigit]
    simp only [hexEncode] at ih ⊢
    rw [ih]
    have : b.val / 16 * 16 + b.val % 16 = b.val := by omega
    simp [this]

theorem utf8ByteSize_hexEncode (bs : List (Fin 256)) :
    String.utf8ByteSize.go (hexEncode bs) = 2 * bs.length := by
  induction bs with
  | nil => rfl
  | cons b rest ih =>
    have hrest : hexEncode (b :: rest) =
        hexDigit ⟨b.val / 16, by omega⟩ :: hexDigit ⟨b.val % 16, by omega⟩ :: hexEncode rest := by
      simp [hexEncode, encodeByte]
    rw [hrest]
    simp only [String.utf8ByteSize.go, utf8Size_hexDigit, ih, List.length_cons]
    omega

theorem utf8ByteSize_Hex (id : ObjectID) : id.Hex.utf8ByteSize = 24 := by
  show String.utf8ByteSize.go (hexEncode id.bytes) = 24
  rw [utf8ByteSize_hexEncode, id.len]

/-- Parsing the hex text of an object identifier gives it back, without error. -/
theorem ObjectIDFromHex_Hex (id : ObjectID) : primitive.ObjectIDFromHex id.Hex = (id, none) := by
  have hdec : hexDecode id.Hex.data = some id.bytes := hexDecode_hexEncode id.bytes
  simp only [primitive.ObjectIDFromHex, utf8ByteSize_Hex, hdec, ne_eq, not_true_eq_false,
    if_false, id.len, dite_true]

theorem Hex_ne_empty (id : ObjectID) : id.Hex ≠ "" := by
  intro h
  have hsize := utf8ByteSize_Hex id
  rw [h] at hsize
  exact absurd hsize (by decide)

/-! ## The handlers when the database reports no error -/

theorem getMongoDbCollection_quiet {env : Env} (h : env.quiet) (server : Collection)
    (a b : String) : getMongoDbCollection env server a b = .ok (server, none) := by
  obtain ⟨h1, h2, _⟩ := h
  simp [getMongoDbCollection, getMongoDbConnection, h1, h2]

theorem filterMatches_id (v : Value) (d : bson.M) :
    filterMatches [("_id", v)] d = (d.lookup "_id" == some v) := by
  simp [filterMatches]

theorem getPerson_quiet {env : Env} (h : env.quiet) (server : Collection) (c : Ctx) :
    getPerson env server c =
      if server.filter (filterMatches (pathFilter c.id)) = [] then
        ⟨c.SendStatus ststusErrorMiss, server, .returned⟩
      else
        ⟨c.Send (.json (.arr ((server.filter (filterMatches (pathFilter c.id))).map marshalM))),
          server, .returned⟩ := by
  have h3 := h.2.2
  simp only [getPerson, getMongoDbCollection_quiet h, Collection.Find, h3, Ctx.Params, if_true]
  have : (if c.id ≠ "" then [("_id", Value.objectID (primitive.ObjectIDFromHex c.id).1)] else [])
      = pathFilter c.id := rfl
  rw [this]
  cases hm : List.filter (filterMatches (pathFilter c.id)) server with
  | nil => simp [Cursor.All]
  | cons d rest => simp [Cursor.All, json.Marshal]

theorem toBson_lookup_id (p : Person) : p.toBson.lookup "_id" = none := by
  simp [Person.toBson, List.lookup]

theorem createPerson_quiet {env : Env} (h : env.quiet) (server : Collection) (c : Ctx) :
    createPerson env server c =
      if server.any (fun d => d.lookup "_id" == some (.objectID env.newID)) then
        ⟨(c.Status ststusError).Send (.text duplicateKey), server, .returned⟩
      else
        ⟨c.Send (.json (.obj [("InsertedID", .str env.newID.Hex)])),
          server ++ [("_id", .objectID env.newID) :: (json.Unmarshal c.reqBody {}).1.toBson],
          .returned⟩ := by
  have h3 := h.2.2
  by_cases hd : server.any (fun d => d.lookup "_id" == some (.objectID env.newID)) = true
  · simp only [createPerson, getMongoDbCollection_quiet h, Collection.InsertOne, h3, ensureID,
      toBson_lookup_id, Ctx.Body, hd, if_true]
  · simp only [createPerson, getMongoDbCollection_quiet h, Collection.InsertOne, h3, ensureID,
      toBson_lookup_id, Ctx.Body, hd, if_false, json.Marshal, Value.toJson]
    rfl

theorem updatePerson_quiet {env : Env} (h : env.quiet) (server : Collection) (c : Ctx) :
    updatePerson env server c =
      ⟨c.Send (.json (json.Marshal (.update (some
          ⟨if server.any (filterMatches [("_id", .objectID (primitive.ObjectIDFromHex c.id).1)])
            then 1 else 0,
           if updateFirst [("_id", .objectID (primitive.ObjectIDFromHex c.id).1)]
                (json.Unmarshal c.reqBody {}).1.toBson server = server then 0 else 1,
           0, none⟩)))),
        updateFirst [("_id", .objectID (primitive.ObjectIDFromHex c.id).1)]
          (json.Unmarshal c.reqBody {}).1.toBson server,
        .returned⟩ := by
  have h3 := h.2.2
  simp only [updatePerson, getMongoDbCollection_quiet h, Collection.UpdateOne, h3, Ctx.Body,
    Ctx.Params, if_true]

theorem deletePerson_quiet {env : Env} (h : env.quiet) (server : Collection) (c : Ctx) :
    deletePerson env server c =
      ⟨c.Send (.json (json.Marshal (.delete (some
          ⟨if server.any (filterMatches [("_id", .objectID (primitive.ObjectIDFromHex c.id).1)])
            then 1 else 0⟩)))),
        deleteFirst [("_id", .objectID (primitive.ObjectIDFromHex c.id).1)] server,
        .returned⟩ := by
  have h3 := h.2.2
  simp only [deletePerson, getMongoDbCollection_quiet h, Collection.DeleteOne, h3, Ctx.Params,
    if_true]

theorem Unmarshal_personBody (fn ln em : String) (age : Int) (hage : fitsInt age = true) :
    json.Unmarshal (personBody fn ln em age) {} =
      ({ FirstName := fn, LastName := ln, Email := em, Age := age }, none) := by
  have h1 : findField "FirstName" = some .FirstName := by decide
  have h2 : findField "LastName" = some .LastName := by decide
  have h3 : findField "Email" = some .Email := by decide
  have h4 : findField "Age" = some .Age := by decide
  simp [json.Unmarshal, personBody, decodeObject, h1, h2, h3, h4, decodeField, hage]

theorem marshalM_person (id : ObjectID) (p : Person) :
    marshalM (("_id", .objectID id) :: p.toBson) =
      .obj [("_id", .str id.Hex), ("age", .int p.Age), ("email", .str p.Email),
        ("firstname", .str p.FirstName), ("lastname", .str p.LastName)] := by
  have k1 : keyLE "age" "email" = true := by decide
  have k2 : keyLE "email" "age" = false := by decide
  have k3 : keyLE "lastname" "age" = false := by decide
  have k4 : keyLE "lastname" "email" = false := by decide
  have k5 : keyLE "firstname" "age" = false := by decide
  have k6 : keyLE "firstname" "email" = false := by decide
  have k7 : keyLE "firstname" "lastname" = true := by decide
  have k8 : keyLE "_id" "age" = true := by decide
  simp [marshalM, Person.toBson, sortKeys, insertKey, Value.toJson, k1, k2, k3, k4, k5, k6, k7, k8]

theorem pathFilter_Hex (id : ObjectID) : pathFilter id.Hex = [("_id", .objectID id)] := by
  simp [pathFilter, Hex_ne_empty, ObjectIDFromHex_Hex]

/-! ## Create, then read -/

/-- C1 (create-then-read round trip).  For every collection and every body
that is the JSON Person object with first name `fn`, last name `ln`, email `em`
and an age that fits Go `int`: when the database reports no error and the
identifier it generates is carried by no stored document, `createPerson`
returns with status 200 and the body `{"InsertedID": hex}` holding the generated
identifier, and `getPerson` with that hex text as path parameter then returns
with status 200 and a JSON array of exactly one document, whose `_id` is the
identifier and whose first name, last name, email and age are those of the body. -/
theorem create_then_read (env₁ env₂ : Env) (server : Collection) (fn ln em : String) (age : Int)
    (b : ReqBody) (h₁ : env₁.quiet) (h₂ : env₂.quiet) (hage : fitsInt age = true)
    (hfresh : ∀ d ∈ server, d.lookup "_id" ≠ some (.objectID env₁.newID)) :
    (createPerson env₁ server (request "" (personBody fn ln em age))).exit = .returned ∧
    (createPerson env₁ server (request "" (personBody fn ln em age))).ctx.status = 200 ∧
    (createPerson env₁ server (request "" (personBody fn ln em age))).ctx.body =
      .json (.obj [("InsertedID", .str env₁.newID.Hex)]) ∧
    (getPerson env₂ (createPerson env₁ server (request "" (personBody fn ln em age))).coll
      (request env₁.newID.Hex b)).exit = .returned ∧
    (getPerson env₂ (createPerson env₁ server (request "" (personBody fn ln em age))).coll
      (request env₁.newID.Hex b)).ctx.status = 200 ∧
    (getPerson env₂ (createPerson env₁ server (request "" (personBody fn ln em age))).coll
      (request env₁.newID.Hex b)).ctx.body =
      .json (.arr [.obj [("_id", .str env₁.newID.Hex), ("age", .int age), ("email", .str em),
        ("firstname", .str fn), ("lastname", .str ln)]]) := by
  have hany : server.any (fun d => d.lookup "_id" == some (.objectID env₁.newID)) = false := by
    simpa [List.any_eq_false] using hfresh
  have hfil : server.filter (filterMatches [("_id", .objectID env₁.newID)]) = [] := by
    simpa [List.filter_eq_nil_iff, filterMatches_id] using hfresh
  rw [createPerson_quiet h₁, hany]
  simp only [Bool.false_eq_true, if_false, request, Unmarshal_personBody fn ln em age hage]
  rw [getPerson_quiet h₂]
  simp only [pathFilter_Hex, List.filter_append, hfil, List.nil_append]
  simp [List.filter, filterMatches_id, marshalM_person, Ctx.Send]

theorem create_then_read_witness :
    Env.quiet { newID := sampleID } ∧
    (getPerson {} (createPerson { newID := sampleID } [] (request "" (personBody "Ann" "Lee"
      "a@x.com" 30))).coll (request sampleID.Hex noBody)).ctx.body =
      .json (.arr [.obj [("_id", .str sampleID.Hex), ("age", .int 30), ("email", .str "a@x.com"),
        ("firstname", .str "Ann"), ("lastname", .str "Lee")]]) :=
  ⟨by decide,
    (create_then_read { newID := sampleID } {} [] "Ann" "Lee" "a@x.com" 30 noBody (by decide)
      (by decide) (by decide) (by simp)).2.2.2.2.2⟩

/-! ## Read -/

/-- C2 (found or not found).  For every collection and every path parameter
that is empty or a well-formed object identifier, when the database reports no
error `getPerson` returns, its status is 404 exactly when no stored document
matches the filter, and otherwise the status is 200 and the body is the JSON
array of exactly the matching documents, in stored order; in particular an
identifier that no document carries gives 404, not 500. -/
theorem getPerson_found_or_missing (env : Env) (server : Collection) (id : String) (b : ReqBody)
    (hq : env.quiet) (_hid : id = "" ∨ (primitive.ObjectIDFromHex id).2 = none) :
    (getPerson env server (request id b)).exit = .returned ∧
    ((getPerson env server (request id b)).ctx.status = 404 ↔
      server.filter (filterMatches (pathFilter id)) = []) ∧
    (server.filter (filterMatches (pathFilter id)) ≠ [] →
      (getPerson env server (request id b)).ctx.status = 200 ∧
      (getPerson env server (request id b)).ctx.body =
        .json (.arr ((server.filter (filterMatches (pathFilter id))).map marshalM))) ∧
    (id ≠ "" →
      (∀ d ∈ server, d.lookup "_id" ≠ some (.objectID (primitive.ObjectIDFromHex id).1)) →
      (getPerson env server (request id b)).ctx.status = 404 ∧
      (getPerson env server (request id b)).ctx.status ≠ 500) := by
  rw [getPerson_quiet hq]
  have hreq : (request id b).id = id := rfl
  rw [hreq]
  by_cases hm : server.filter (filterMatches (pathFilter id)) = []
  · simp [hm, request, Ctx.SendStatus, ststusErrorMiss]
  · have hne : id ≠ "" →
        ¬ ∀ d ∈ server, d.lookup "_id" ≠ some (.objectID (primitive.ObjectIDFromHex id).1) := by
      intro hid hall
      apply hm
      simp only [pathFilter, hid, ne_eq, not_false_eq_true, if_true]
      simpa [List.filter_eq_nil_iff, filterMatches_id] using hall
    simp only [hm, if_false, request, Ctx.Send, ne_eq, not_false_eq_true, true_implies,
      and_self, true_and]
    refine ⟨by decide, fun hid hall => absurd hall (hne hid)⟩

theorem getPerson_found_or_missing_witness :
    Env.quiet {} ∧
    (getPerson {} [sampleDoc] (request "0102030405060708090aabfe" noBody)).ctx.status = 404 :=
  ⟨by decide,
    ((getPerson_found_or_missing {} [sampleDoc] "0102030405060708090aabfe" noBody (by decide)
      (Or.inr (by decide))).2.2.2 (by decide) (by decide)).1⟩

/-! ## Delete, then read -/

theorem filter_deleteFirst (v : Value) (coll : Collection) (h : uniqueIds coll) :
    (deleteFirst [("_id", v)] coll).filter (filterMatches [("_id", v)]) = [] := by
  induction coll with
  | nil => rfl
  | cons d rest ih =>
    have hrest : uniqueIds rest := (List.pairwise_cons.mp h).2
    have hd := (List.pairwise_cons.mp h).1
    by_cases hm : filterMatches [("_id", v)] d = true
    · simp only [deleteFirst, hm, if_true]
      rw [List.filter_eq_nil_iff]
      intro a ha
      have := hd a ha
      rw [filterMatches_id] at hm ⊢
      simp only [beq_iff_eq] at hm ⊢
      rw [hm] at this
      exact fun h' => this h'.symm
    · simp only [deleteFirst, hm, Bool.false_eq_true, if_false, List.filter_cons, ih hrest]

theorem any_of_mem {v : Value} {coll : Collection} {d : bson.M} (hd : d ∈ coll)
    (hid : d.lookup "_id" = some v) : coll.any (filterMatches [("_id", v)]) = true := by
  rw [List.any_eq_true]
  exact ⟨d, hd, by rw [filterMatches_id, hid]; simp⟩

/-- C3 (delete-then-read).  For every collection with distinct identifiers and
every identifier `oid` of a stored document, when the database reports no
error `deletePerson` with the hex text of `oid` returns 200 with
`{"DeletedCount":1}`, and `getPerson` with the same path parameter on the
collection it leaves returns 404 with the body `Not Found`. -/
theorem delete_then_read (env₁ env₂ : Env) (server : Collection) (oid : ObjectID) (d : bson.M)
    (b₁ b₂ : ReqBody) (h₁ : env₁.quiet) (h₂ : env₂.quiet) (hu : uniqueIds server)
    (hd : d ∈ server) (hid : d.lookup "_id" = some (.objectID oid)) :
    (deletePerson env₁ server (request oid.Hex b₁)).exit = .returned ∧
    (deletePerson env₁ server (request oid.Hex b₁)).ctx.status = 200 ∧
    (deletePerson env₁ server (request oid.Hex b₁)).ctx.body =
      .json (.obj [("DeletedCount", .int 1)]) ∧
    (getPerson env₂ (deletePerson env₁ server (request oid.Hex b₁)).coll
      (request oid.Hex b₂)).exit = .returned ∧
    (getPerson env₂ (deletePerson env₁ server (request oid.Hex b₁)).coll
      (request oid.Hex b₂)).ctx.status = 404 ∧
    (getPerson env₂ (deletePerson env₁ server (request oid.Hex b₁)).coll
      (request oid.Hex b₂)).ctx.body = .text "Not Found" := by
  rw [deletePerson_quiet h₁]
  have hreq : ∀ b, (request oid.Hex b).id = oid.Hex := fun _ => rfl
  simp only [hreq, ObjectIDFromHex_Hex, any_of_mem hd hid, if_true]
  rw [getPerson_quiet h₂]
  simp only [hreq, pathFilter_Hex, filter_deleteFirst _ _ hu, if_true]
  simp [request, Ctx.Send, Ctx.SendStatus, json.Marshal, ststusErrorMiss, statusMessage]

theorem delete_then_read_witness :
    Env.quiet {} ∧ uniqueIds [sampleDoc] ∧
    (getPerson {} (deletePerson {} [sampleDoc] (request sampleID.Hex noBody)).coll
      (request sampleID.Hex noBody)).ctx.status = 404 :=
  ⟨by decide, by decide,
    (delete_then_read {} {} [sampleDoc] sampleID sampleDoc noBody noBody (by decide) (by decide)
      (by decide) (by simp) (by decide)).2.2.2.2.1⟩

/-! ## Update, then read -/

theorem decodeField_get (f g : Field) (v : Json) (p : Person) (h : g ≠ f) :
    (decodeField f v p).1.get g = p.get g := by
  cases f <;> cases g <;> first | exact absurd rfl h | skip
  all_goals
    cases v <;> simp only [decodeField, Person.get] <;> try split
  all_goals rfl

theorem decodeObject_get (g : Field) (members : List (String × Json)) (p : Person)
    (e : Option String) (h : ∀ kv ∈ members, findField kv.1 ≠ some g) :
    (decodeObject members p e).1.get g = p.get g := by
  induction members generalizing p e with
  | nil => rfl
  | cons kv rest ih =>
    obtain ⟨k, v⟩ := kv
    have hk : findField k ≠ some g := h (k, v) (List.mem_cons_self _ _)
    have hrest : ∀ kv ∈ rest, findField kv.1 ≠ some g :=
      fun kv hkv => h kv (List.mem_cons_of_mem _ hkv)
    cases hf : findField k with
    | none => simp only [decodeObject, hf]; exact ih p e hrest
    | some f =>
      simp only [decodeObject, hf]
      rw [ih _ _ hrest]
      exact decodeField_get f g v p (fun hgf => hk (by rw [hf, hgf]))

/-- A field the body does not specify has the zero value in the record parsed. -/
theorem Unmarshal_unspecified (body : ReqBody) (g : Field) (h : ¬ specifies body g) :
    (json.Unmarshal body {}).1.get g = ({} : Person).get g := by
  cases body with
  | invalid msg => rfl
  | valid j =>
    cases j with
    | obj members =>
      simp only [json.Unmarshal]
      apply decodeObject_get
      intro kv hkv hf
      exact h ⟨members, rfl, kv, hkv, hf⟩
    | _ => rfl

theorem lookup_setField_self (k : String) (v : Value) (d : bson.M) :
    (setField k v d).lookup k = some v := by
  induction d with
  | nil => simp [setField, List.lookup]
  | cons kv rest ih =>
    by_cases h : kv.1 = k
    · simp [setField, h, List.lookup]
    · have h' : (k == kv.1) = false := by simpa using fun e => h e.symm
      simp only [setField, h, if_false]
      rw [show kv = (kv.1, kv.2) from rfl, List.lookup_cons, h']
      exact ih

theorem lookup_setField_ne (k k' : String) (v : Value) (d : bson.M) (hne : k' ≠ k) :
    (setField k v d).lookup k' = d.lookup k' := by
  induction d with
  | nil =>
    have h' : (k' == k) = false := by simpa using hne
    simp [setField, List.lookup, h']
  | cons kv rest ih =>
    by_cases h : kv.1 = k
    · have h' : (k' == k) = false := by simpa using hne
      have h'' : (k' == kv.1) = false := by rw [h]; exact h'
      simp only [setField, h, if_true]
      rw [List.lookup_cons, h']
      conv_rhs => rw [show kv = (kv.1, kv.2) from rfl, List.lookup_cons, h'']
    · simp only [setField, h, if_false]
      rw [show kv = (kv.1, kv.2) from rfl, List.lookup_cons, List.lookup_cons, ih]

theorem lookup_applySet_toBson (p : Person) (d : bson.M) (f : Field) :
    (applySet p.toBson d).lookup f.key = some (p.get f) := by
  cases f <;>
    simp [applySet, Person.toBson, Field.key, Person.get, lookup_setField_self,
      lookup_setField_ne]

theorem lookup_id_applySet_toBson (p : Person) (d : bson.M) :
    (applySet p.toBson d).lookup "_id" = d.lookup "_id" := by
  simp [applySet, Person.toBson, lookup_setField_ne]

theorem runesLE_refl (l : List Nat) : runesLE l l = true := by
  induction l with
  | nil => rfl
  | cons a rest ih => simp [runesLE, ih]

theorem keyLE_refl (k : String) : keyLE k k = true := runesLE_refl _

theorem lookup_insertKey (p : String × Json) (l : List (String × Json)) (k : String) :
    (insertKey p l).lookup k = if k = p.1 then some p.2 else l.lookup k := by
  obtain ⟨pk, pv⟩ := p
  induction l with
  | nil =>
    by_cases h : k = pk
    · simp [insertKey, List.lookup, h]
    · have h' : (k == pk) = false := by simpa using h
      simp [insertKey, h, List.lookup_cons, h']
  | cons q rest ih =>
    obtain ⟨qk, qv⟩ := q
    by_cases hle : keyLE pk qk = true
    · simp only [insertKey, hle, if_true]
      rw [List.lookup_cons]
      by_cases h : k = pk
      · simp [h]
      · have h' : (k == pk) = false := by simpa using h
        simp [h, h']
    · have hqp : qk ≠ pk := fun e => hle (by rw [e]; exact keyLE_refl _)
      have hle' : keyLE pk qk = false := by simpa using hle
      simp only [insertKey, hle', Bool.false_eq_true, if_false]
      rw [List.lookup_cons, List.lookup_cons, ih]
      by_cases h : k = pk
      · have h' : (pk == qk) = false := by simpa using fun e => hqp e.symm
        subst h
        simp [h']
      · simp [h]

theorem lookup_sortKeys (l : List (String × Json)) (k : String) :
    (sortKeys l).lookup k = l.lookup k := by
  induction l with
  | nil => rfl
  | cons p rest ih =>
    obtain ⟨pk, pv⟩ := p
    rw [sortKeys, lookup_insertKey, ih, List.lookup_cons]
    by_cases h : k = pk
    · simp [h]
    · have h' : (k == pk) = false := by simpa using h
      simp [h, h']

/-- The member of a marshalled document under a key is the stored value, marshalled. -/
theorem field_marshalM (d : bson.M) (k : String) :
    (marshalM d).field k = (d.lookup k).map Value.toJson := by
  simp only [marshalM, Json.field, lookup_sortKeys]
  induction d with
  | nil => rfl
  | cons kv rest ih =>
    rw [List.map_cons, List.lookup_cons, show kv = (kv.1, kv.2) from rfl, List.lookup_cons]
    cases k == kv.1 <;> simp [ih]

theorem filter_updateFirst (v : Value) (set : bson.M) (coll : Collection) (d : bson.M)
    (hset : ∀ x : bson.M, (applySet set x).lookup "_id" = x.lookup "_id")
    (h : uniqueIds coll) (hd : d ∈ coll) (hid : d.lookup "_id" = some v) :
    (updateFirst [("_id", v)] set coll).filter (filterMatches [("_id", v)]) = [applySet set d] := by
  induction coll with
  | nil => exact absurd hd (List.not_mem_nil _)
  | cons x rest ih =>
    have hrest : uniqueIds rest := (List.pairwise_cons.mp h).2
    have hx := (List.pairwise_cons.mp h).1
    by_cases hm : filterMatches [("_id", v)] x = true
    · have hxv : x.lookup "_id" = some v := by simpa [filterMatches_id] using hm
      have hdx : d = x := by
        rcases List.mem_cons.mp hd with e | hmem
        · exact e
        · exact absurd (hxv.trans hid.symm) (hx d hmem)
      have hnone : rest.filter (filterMatches [("_id", v)]) = [] := by
        rw [List.filter_eq_nil_iff]
        intro a ha
        rw [filterMatches_id]
        simp only [beq_iff_eq]
        intro hav
        exact hx a ha (hxv.trans hav.symm)
      have hm' : filterMatches [("_id", v)] (applySet set x) = true := by
        rw [filterMatches_id, hset, hxv]; simp
      simp only [updateFirst, hm, if_true, List.filter_cons, hm', hnone, hdx]
    · have hdrest : d ∈ rest := by
        rcases List.mem_cons.mp hd with e | hmem
        · rw [← e, filterMatches_id, hid] at hm
          simp at hm
        · exact hmem
      simp only [updateFirst, hm, Bool.false_eq_true, if_false, List.filter_cons,
        ih hrest hdrest]

/-- C4 (update is a full overwrite).  For every collection with distinct
identifiers, every stored document `d` with identifier `oid` and every update
body, when the database reports no error `updatePerson` on the hex text of `oid`
returns 200, and `getPerson` on the same path parameter then returns 200 with
exactly one document, the stored one after the `$set`: its `_id` is unchanged
and each of first name, last name, email and age is the field of the `Person`
parsed from the body; a field the body does not specify has the zero value
there, whatever `d` held before. -/
theorem update_then_read (env₁ env₂ : Env) (server : Collection) (oid : ObjectID) (d : bson.M)
    (body b : ReqBody) (h₁ : env₁.quiet) (h₂ : env₂.quiet) (hu : uniqueIds server)
    (hd : d ∈ server) (hid : d.lookup "_id" = some (.objectID oid)) :
    (updatePerson env₁ server (request oid.Hex body)).exit = .returned ∧
    (updatePerson env₁ server (request oid.Hex body)).ctx.status = 200 ∧
    (getPerson env₂ (updatePerson env₁ server (request oid.Hex body)).coll
      (request oid.Hex b)).exit = .returned ∧
    (getPerson env₂ (updatePerson env₁ server (request oid.Hex body)).coll
      (request oid.Hex b)).ctx.status = 200 ∧
    (getPerson env₂ (updatePerson env₁ server (request oid.Hex body)).coll
      (request oid.Hex b)).ctx.body =
        .json (.arr [marshalM (applySet (json.Unmarshal body {}).1.toBson d)]) ∧
    (marshalM (applySet (json.Unmarshal body {}).1.toBson d)).field "_id" = some (.str oid.Hex) ∧
    (∀ f : Field, (marshalM (applySet (json.Unmarshal body {}).1.toBson d)).field f.key =
      some ((json.Unmarshal body {}).1.get f).toJson) ∧
    (∀ f : Field, ¬ specifies body f →
      (marshalM (applySet (json.Unmarshal body {}).1.toBson d)).field f.key =
        some (({} : Person).get f).toJson) := by
  rw [updatePerson_quiet h₁]
  have hreq : ∀ b, (request oid.Hex b).id = oid.Hex := fun _ => rfl
  have hbody : ∀ b, (request oid.Hex b).reqBody = b := fun _ => rfl
  simp only [hreq, hbody, ObjectIDFromHex_Hex]
  rw [getPerson_quiet h₂]
  simp only [hreq, pathFilter_Hex,
    filter_updateFirst _ _ _ d (lookup_id_applySet_toBson _) hu hd hid]
  refine ⟨trivial, rfl, ?_, ?_, ?_, ?_, ?_, ?_⟩
  · simp
  · simp [Ctx.Send, request]
  · simp [Ctx.Send, request]
  · rw [field_marshalM, lookup_id_applySet_toBson, hid]; rfl
  · intro f; rw [field_marshalM, lookup_applySet_toBson]; rfl
  · intro f hf
    rw [field_marshalM, lookup_applySet_toBson, Unmarshal_unspecified body f hf]; rfl

theorem update_then_read_witness :
    Env.quiet {} ∧ uniqueIds [sampleDoc] ∧
    (marshalM (applySet (json.Unmarshal (.valid (.obj [("Age", .int 31)])) {}).1.toBson
      sampleDoc)).field "firstname" = some (.str "") ∧
    (getPerson {} (updatePerson {} [sampleDoc] (request sampleID.Hex
      (.valid (.obj [("Age", .int 31)])))).coll (request sampleID.Hex noBody)).ctx.status = 200 :=
  have h := update_then_read {} {} [sampleDoc] sampleID sampleDoc
    (.valid (.obj [("Age", .int 31)])) noBody (by decide) (by decide) (by decide) (by simp)
    (by decide)
  ⟨by decide, by decide,
    h.2.2.2.2.2.2.2 .FirstName (by
      rintro ⟨ms, hms, kv, hkv, hf⟩
      cases hms
      simp only [List.mem_singleton] at hkv
      subst hkv
      exact absurd hf (by decide)),
    h.2.2.2.1⟩

/-! ## Read all -/

theorem createPerson_ok (env : Env) (server : Collection) (c : Ctx)
    (h : (createPerson env server c).ok = true) :
    env.quiet ∧ server.any (fun d => d.lookup "_id" == some (.objectID env.newID)) = false ∧
      (createPerson env server c).coll =
        server ++ [recordDoc (env.newID, (json.Unmarshal c.reqBody {}).1)] := by
  have hq : env.quiet := by
    refine ⟨?_, ?_, ?_⟩
    · cases h1 : env.connectErr with
      | none => rfl
      | some e =>
        simp [createPerson, getMongoDbCollection, getMongoDbConnection, h1, Result.ok] at h
    · cases h1 : env.connectErr with
      | some e =>
        simp [createPerson, getMongoDbCollection, getMongoDbConnection, h1, Result.ok] at h
      | none =>
        cases h2 : env.pingErr with
        | none => rfl
        | some e =>
          simp [createPerson, getMongoDbCollection, getMongoDbConnection, h1, h2, Result.ok] at h
    · cases h1 : env.connectErr with
      | some e =>
        simp [createPerson, getMongoDbCollection, getMongoDbConnection, h1, Result.ok] at h
      | none =>
        cases h2 : env.pingErr with
        | some e =>
          simp [createPerson, getMongoDbCollection, getMongoDbConnection, h1, h2, Result.ok] at h
        | none =>
          cases h3 : env.opErr with
          | none => rfl
          | some e =>
            simp [createPerson, getMongoDbCollection, getMongoDbConnection, h1, h2, h3,
              Collection.InsertOne, Result.ok, Ctx.Send, Ctx.Status, ststusError] at h
  refine ⟨hq, ?_⟩
  rw [createPerson_quiet hq] at h ⊢
  by_cases hany : server.any (fun d => d.lookup "_id" == some (.objectID env.newID)) = true
  · simp [hany, Result.ok, Ctx.Send, Ctx.Status, ststusError] at h
  · have hfalse : server.any (fun d => d.lookup "_id" == some (.objectID env.newID)) = false := by
      simpa using hany
    rw [hfalse]
    exact ⟨rfl, rfl⟩

theorem deletePerson_ok (env : Env) (server : Collection) (c : Ctx)
    (h : (deletePerson env server c).ok = true) : env.quiet := by
  refine ⟨?_, ?_, ?_⟩
  · cases h1 : env.connectErr with
    | none => rfl
    | some e =>
      simp [deletePerson, getMongoDbCollection, getMongoDbConnection, h1, Result.ok] at h
  · cases h1 : env.connectErr with
    | some e =>
      simp [deletePerson, getMongoDbCollection, getMongoDbConnection, h1, Result.ok] at h
    | none =>
      cases h2 : env.pingErr with
      | none => rfl
      | some e =>
        simp [deletePerson, getMongoDbCollection, getMongoDbConnection, h1, h2, Result.ok] at h
  · cases h1 : env.connectErr with
    | some e =>
      simp [deletePerson, getMongoDbCollection, getMongoDbConnection, h1, Result.ok] at h
    | none =>
      cases h2 : env.pingErr with
      | some e =>
        simp [deletePerson, getMongoDbCollection, getMongoDbConnection, h1, h2, Result.ok] at h
      | none =>
        cases h3 : env.opErr with
        | none => rfl
        | some e =>
          simp [deletePerson, getMongoDbCollection, getMongoDbConnection, h1, h2, h3,
            Collection.DeleteOne, Result.ok, Ctx.Send, Ctx.Status, ststusError] at h

theorem filterMatches_recordDoc (oid : ObjectID) (r : ObjectID × Person) :
    filterMatches [("_id", .objectID oid)] (recordDoc r) = decide (r.1 = oid) := by
  rw [filterMatches_id]
  by_cases h : r.1 = oid <;> simp [recordDoc, List.lookup, h]

theorem deleteFirst_records (oid : ObjectID) (ledger : List (ObjectID × Person))
    (h : (ledger.map Prod.fst).Nodup) :
    deleteFirst [("_id", .objectID oid)] (ledger.map recordDoc) =
      (ledger.filter fun r => r.1 ≠ oid).map recordDoc := by
  induction ledger with
  | nil => rfl
  | cons r rest ih =>
    rw [List.map_cons, List.nodup_cons] at h
    by_cases hr : r.1 = oid
    · have hkeep : rest.filter (fun r => decide (r.1 ≠ oid)) = rest := by
        rw [List.filter_eq_self]
        intro a ha
        have : a.1 ≠ oid := fun e => h.1 (by rw [hr, ← e]; exact List.mem_map_of_mem _ ha)
        simpa using this
      rw [List.map_cons, deleteFirst, filterMatches_recordDoc, List.filter_cons]
      simp only [hr, decide_True, if_true, ne_eq, not_true_eq_false, decide_False,
        Bool.false_eq_true, if_false]
      rw [show (fun r : ObjectID × Person => decide ¬ r.1 = oid) = fun r => decide (r.1 ≠ oid)
        from rfl, hkeep]
    · simp [deleteFirst, filterMatches_recordDoc, hr, ih h.2]

theorem serveAll_live (calls : List Call) (ledger : List (ObjectID × Person))
    (coll : Collection) (hnodup : (ledger.map Prod.fst).Nodup)
    (hrun : serveAll calls (ledger.map recordDoc) = some coll) :
    coll = (live ledger calls).map recordDoc := by
  induction calls generalizing ledger with
  | nil => simpa [serveAll, live] using hrun.symm
  | cons call rest ih =>
    simp only [serveAll] at hrun
    by_cases hok : (call.serve (ledger.map recordDoc)).ok = true
    · rw [if_pos hok] at hrun
      cases call with
      | create env body =>
        obtain ⟨_, hfresh, hcoll⟩ := createPerson_ok env _ _ hok
        simp only [Call.serve] at hrun
        rw [hcoll] at hrun
        have hreq : (request "" body).reqBody = body := rfl
        rw [hreq, show ledger.map recordDoc ++ [recordDoc (env.newID, (json.Unmarshal body {}).1)]
          = (ledger ++ [(env.newID, (json.Unmarshal body {}).1)]).map recordDoc by simp] at hrun
        have hnew : env.newID ∉ ledger.map Prod.fst := by
          intro hmem
          obtain ⟨r, hr, hr1⟩ := List.mem_map.mp hmem
          rw [List.any_eq_false] at hfresh
          apply hfresh (recordDoc r) (List.mem_map_of_mem _ hr)
          simp [recordDoc, List.lookup, hr1]
        have hnodup' : ((ledger ++ [(env.newID, (json.Unmarshal body {}).1)]).map
            Prod.fst).Nodup := by
          rw [List.map_append, List.nodup_append]
          refine ⟨hnodup, by simp, ?_⟩
          intro a ha hb
          simp only [List.map_cons, List.map_nil, List.mem_singleton] at hb
          exact hnew (hb ▸ ha)
        exact ih _ hnodup' hrun
      | delete env id =>
        have hq := deletePerson_ok env _ _ hok
        simp only [Call.serve] at hrun
        rw [deletePerson_quiet hq] at hrun
        have hreq : (request id noBody).id = id := rfl
        simp only [hreq] at hrun
        rw [deleteFirst_records _ _ hnodup] at hrun
        have hnodup' : ((ledger.filter fun r =>
            r.1 ≠ (primitive.ObjectIDFromHex id).1).map Prod.fst).Nodup :=
          (List.filter_sublist _).map Prod.fst |>.nodup hnodup
        exact ih _ hnodup' hrun
    · rw [if_neg hok] at hrun
      exact absurd hrun (by simp)

theorem marshalM_recordDoc (r : ObjectID × Person) : marshalM (recordDoc r) = recordJson r :=
  marshalM_person r.1 r.2

/-- C5 (read-all).  For every history of successful `createPerson` and
`deletePerson` calls served from the empty collection, `getPerson` without a
path parameter returns, when the database reports no error, exactly the
records created and not since deleted (`live`), in order of creation: status
200 and the JSON array of their documents, or, when none is left, the empty
result set in the form `getPerson` gives it, status 404. -/
theorem read_all (calls : List Call) (coll : Collection) (env : Env) (b : ReqBody)
    (hrun : serveAll calls [] = some coll) (hq : env.quiet) :
    (getPerson env coll (request "" b)).exit = .returned ∧
    (live [] calls = [] →
      (getPerson env coll (request "" b)).ctx.status = 404 ∧
      (getPerson env coll (request "" b)).ctx.body = .text "Not Found") ∧
    (live [] calls ≠ [] →
      (getPerson env coll (request "" b)).ctx.status = 200 ∧
      (getPerson env coll (request "" b)).ctx.body =
        .json (.arr ((live [] calls).map recordJson))) := by
  have hcoll : coll = (live [] calls).map recordDoc :=
    serveAll_live calls [] coll (by simp) (by simpa using hrun)
  have hall : ∀ l : Collection, l.filter (filterMatches (pathFilter "")) = l := by
    intro l
    rw [List.filter_eq_self]
    intro d _
    rfl
  rw [getPerson_quiet hq]
  have hreq : (request "" b).id = "" := rfl
  rw [hreq, hall, hcoll]
  by_cases hl : live [] calls = []
  · simp [hl, request, Ctx.SendStatus, ststusErrorMiss, statusMessage]
  · have hne : (live [] calls).map recordDoc ≠ [] := by simpa using hl
    rw [if_neg hne]
    refine ⟨rfl, fun h => absurd h hl, fun _ => ⟨rfl, ?_⟩⟩
    have hmap : ((live [] calls).map recordDoc).map marshalM = (live [] calls).map recordJson := by
      rw [List.map_map]
      apply List.map_congr_left
      intro r _
      exact marshalM_recordDoc r
    simp only [Ctx.Send, hmap]

theorem read_all_witness :
    serveAll [.create { newID := sampleID } (personBody "Ann" "Lee" "a@x.com" 30),
      .create { newID := NilObjectID } (personBody "Bo" "Ek" "b@x.com" 41),
      .delete {} "not-an-id"] [] = some [sampleDoc] ∧
    Env.quiet {} ∧
    (getPerson {} [sampleDoc] (request "" noBody)).ctx.body =
      .json (.arr [recordJson (sampleID, samplePerson)]) :=
  ⟨by decide, by decide,
    ((read_all [.create { newID := sampleID } (personBody "Ann" "Lee" "a@x.com" 30),
      .create { newID := NilObjectID } (personBody "Bo" "Ek" "b@x.com" 41),
      .delete {} "not-an-id"] [sampleDoc] {} noBody (by decide) (by decide)).2.2
        (by decide)).2⟩

/-! ## Malformed identifiers -/

theorem ObjectIDFromHex_malformed (id : String) (h : (primitive.ObjectIDFromHex id).2 ≠ none) :
    (primitive.ObjectIDFromHex id).1 = NilObjectID := by
  by_cases hs : id.utf8ByteSize = 24
  · cases hdec : hexDecode id.data with
    | none => simp [primitive.ObjectIDFromHex, hs, hdec]
    | some b =>
      by_cases hl : b.length = 12
      · simp [primitive.ObjectIDFromHex, hs, hdec, hl] at h
      · simp [primitive.ObjectIDFromHex, hs, hdec, hl]
  · simp [primitive.ObjectIDFromHex, hs]

/-- The response of `getPerson` depends on the path parameter only through the filter. -/
theorem getPerson_congr (env : Env) (server : Collection) (id id' : String) (b : ReqBody)
    (h : pathFilter id = pathFilter id') :
    (getPerson env server (request id b)).ctx.status =
      (getPerson env server (request id' b)).ctx.status ∧
    (getPerson env server (request id b)).ctx.body =
      (getPerson env server (request id' b)).ctx.body ∧
    (getPerson env server (request id b)).exit = (getPerson env server (request id' b)).exit ∧
    (getPerson env server (request id b)).coll = (getPerson env server (request id' b)).coll := by
  cases h1 : env.connectErr with
  | some e =>
    simp [getPerson, getMongoDbCollection, getMongoDbConnection, h1, request]
  | none =>
    cases h2 : env.pingErr with
    | some e =>
      simp [getPerson, getMongoDbCollection, getMongoDbConnection, h1, h2, request]
    | none =>
      cases h3 : env.opErr with
      | some e =>
        simp [getPerson, getMongoDbCollection, getMongoDbConnection, h1, h2, h3,
          Collection.Find, request, Ctx.Send, Ctx.Status]
      | none =>
        have hq : env.quiet := ⟨h1, h2, h3⟩
        rw [getPerson_quiet hq, getPerson_quiet hq]
        have hreq : ∀ i, (request i b).id = i := fun _ => rfl
        rw [hreq, hreq, h]
        by_cases hm : server.filter (filterMatches (pathFilter id')) = []
        · simp [hm, request, Ctx.SendStatus]
        · simp [hm, request, Ctx.Send]

/-- C6 as stated fails: `xyz` is a non-empty path parameter that is no object
identifier; the filter built from it is not the empty filter, and on a
collection holding one person `getPerson` answers 404 for it while it answers
200, with that person, when there is no parameter. -/
theorem malformed_id_not_empty_filter :
    "xyz" ≠ "" ∧ (primitive.ObjectIDFromHex "xyz").2 ≠ none ∧ pathFilter "xyz" ≠ pathFilter "" ∧
    (getPerson {} [sampleDoc] (request "xyz" noBody)).ctx.status = 404 ∧
    (getPerson {} [sampleDoc] (request "" noBody)).ctx.status = 200 := by
  refine ⟨by decide, by decide, by decide, by decide, by decide⟩

/-- C6, amended.  A path parameter that is non-empty but no valid hexadecimal
object identifier is not rejected: the parse error is dropped and the filter is
`_id = NilObjectID`, the all-zero identifier.  So `getPerson` with such a
parameter gives the response it gives for the parameter
`000000000000000000000000` (same status, body, exit and collection), and when
the database reports no error that response is 404 exactly when no stored
document carries the all-zero identifier. -/
theorem malformed_id_is_nil_id (env : Env) (server : Collection) (id : String) (b : ReqBody)
    (hne : id ≠ "") (hbad : (primitive.ObjectIDFromHex id).2 ≠ none) :
    pathFilter id = [("_id", .objectID NilObjectID)] ∧
    (getPerson env server (request id b)).ctx.status =
      (getPerson env server (request NilObjectID.Hex b)).ctx.status ∧
    (getPerson env server (request id b)).ctx.body =
      (getPerson env server (request NilObjectID.Hex b)).ctx.body ∧
    (getPerson env server (request id b)).exit =
      (getPerson env server (request NilObjectID.Hex b)).exit ∧
    (getPerson env server (request id b)).coll =
      (getPerson env server (request NilObjectID.Hex b)).coll ∧
    (env.quiet → ((getPerson env server (request id b)).ctx.status = 404 ↔
      ∀ d ∈ server, d.lookup "_id" ≠ some (.objectID NilObjectID))) := by
  have hf : pathFilter id = [("_id", .objectID NilObjectID)] := by
    simp [pathFilter, hne, ObjectIDFromHex_malformed id hbad]
  refine ⟨hf, ?_⟩
  have hcongr := getPerson_congr env server id NilObjectID.Hex b (by rw [hf, pathFilter_Hex])
  refine ⟨hcongr.1, hcongr.2.1, hcongr.2.2.1, hcongr.2.2.2, ?_⟩
  intro hq
  rw [getPerson_quiet hq]
  have hreq : (request id b).id = id := rfl
  rw [hreq, hf]
  by_cases hm : server.filter (filterMatches [("_id", .objectID NilObjectID)]) = []
  · have hall := hm
    rw [List.filter_eq_nil_iff] at hall
    simp only [filterMatches_id, beq_iff_eq] at hall
    simp only [hm, if_true]
    exact ⟨fun _ => hall, fun _ => by simp [request, Ctx.SendStatus, ststusErrorMiss]⟩
  · have hall := hm
    rw [List.filter_eq_nil_iff] at hall
    simp only [filterMatches_id, beq_iff_eq] at hall
    simp only [hm, if_false]
    exact ⟨fun h => absurd h (by simp [request, Ctx.Send]), fun h => absurd h hall⟩

theorem malformed_id_is_nil_id_witness :
    "xyz" ≠ "" ∧ (primitive.ObjectIDFromHex "xyz").2 ≠ none ∧
    pathFilter "xyz" = [("_id", .objectID NilObjectID)] :=
  ⟨by decide, by decide,
    (malformed_id_is_nil_id {} [sampleDoc] "xyz" noBody (by decide) (by decide)).1⟩

/-! ## Parse errors -/

/-- C7 as stated fails: a request without a body does not parse as a Person,
yet `createPerson` returns 200 and has inserted a document with all four
fields zero, and `updatePerson` returns 200 and has overwritten the four fields
of the stored person with zero values. -/
theorem parse_error_not_rejected :
    (json.Unmarshal noBody {}).2 ≠ none ∧
    (createPerson { newID := sampleID } [] (request "" noBody)).exit = .returned ∧
    (createPerson { newID := sampleID } [] (request "" noBody)).ctx.status = 200 ∧
    (createPerson { newID := sampleID } [] (request "" noBody)).coll =
      [[("_id", .objectID sampleID), ("firstname", .str ""), ("lastname", .str ""),
        ("email", .str ""), ("age", .int 0)]] ∧
    (updatePerson {} [sampleDoc] (request sampleID.Hex noBody)).ctx.status = 200 ∧
    (updatePerson {} [sampleDoc] (request sampleID.Hex noBody)).coll =
      [[("_id", .objectID sampleID), ("firstname", .str ""), ("lastname", .str ""),
        ("email", .str ""), ("age", .int 0)]] := by
  refine ⟨by decide, by decide, by decide, by decide, by decide, by decide⟩

theorem updateFirst_frame (filter set : bson.M) (coll : Collection) :
    (coll.any (filterMatches filter) = false ∧ updateFirst filter set coll = coll) ∨
    ∃ pre d post, coll = pre ++ d :: post ∧ filterMatches filter d = true ∧
      updateFirst filter set coll = pre ++ applySet set d :: post := by
  induction coll with
  | nil => left; exact ⟨rfl, rfl⟩
  | cons x rest ih =>
    by_cases hm : filterMatches filter x = true
    · right
      exact ⟨[], x, rest, rfl, hm, by simp [updateFirst, hm]⟩
    · rcases ih with ⟨hany, heq⟩ | ⟨pre, d, post, hsplit, hd, heq⟩
      · left
        exact ⟨by simp [List.any_cons, hm, hany], by simp [updateFirst, hm, heq]⟩
      · right
        exact ⟨x :: pre, d, post, by rw [hsplit]; rfl, hd, by simp [updateFirst, hm, heq]⟩

/-- C7, amended.  Parse errors are dropped, never reported: for every request
body that fails to parse as a Person record, when the database reports no
error `createPerson` and `updatePerson` return with status 200 and the result
of the driver as body, as for any other body.  `createPerson` (the generated
identifier being new) answers `{"InsertedID": hex}` and has appended the record
as far as it was decoded, so the collection has changed.  `updatePerson` answers
the match and modification counts of `UpdateOne`; the collection is unchanged
when no document carries the identifier parsed from the path, and otherwise
exactly one document carrying it has been replaced by the result of the
`$set`, whose four Person fields are those of the record as far as it was
decoded.  For a body that is not valid JSON that record has every field zero. -/
theorem parse_error_dropped (env : Env) (server : Collection) (id : String) (body : ReqBody)
    (hq : env.quiet) (_hbad : (json.Unmarshal body {}).2 ≠ none) :
    ((∀ d ∈ server, d.lookup "_id" ≠ some (.objectID env.newID)) →
      (createPerson env server (request "" body)).exit = .returned ∧
      (createPerson env server (request "" body)).ctx.status = 200 ∧
      (createPerson env server (request "" body)).ctx.body =
        .json (.obj [("InsertedID", .str env.newID.Hex)]) ∧
      (createPerson env server (request "" body)).coll =
        server ++ [("_id", .objectID env.newID) :: (json.Unmarshal body {}).1.toBson] ∧
      (createPerson env server (request "" body)).coll ≠ server) ∧
    (updatePerson env server (request id body)).exit = .returned ∧
    (updatePerson env server (request id body)).ctx.status = 200 ∧
    (updatePerson env server (request id body)).ctx.body =
      .json (.obj [
        ("MatchedCount", .int (Int.ofNat
          (if server.any (filterMatches [("_id", .objectID (primitive.ObjectIDFromHex id).1)])
            then 1 else 0))),
        ("ModifiedCount", .int (Int.ofNat
          (if updateFirst [("_id", .objectID (primitive.ObjectIDFromHex id).1)]
              (json.Unmarshal body {}).1.toBson server = server then 0 else 1))),
        ("UpsertedCount", .int 0), ("UpsertedID", .null)]) ∧
    (updatePerson env server (request id body)).coll =
      updateFirst [("_id", .objectID (primitive.ObjectIDFromHex id).1)]
        (json.Unmarshal body {}).1.toBson server ∧
    ((∀ d ∈ server, d.lookup "_id" ≠ some (.objectID (primitive.ObjectIDFromHex id).1)) →
      (updatePerson env server (request id body)).coll = server) ∧
    ((∃ d ∈ server, d.lookup "_id" = some (.objectID (primitive.ObjectIDFromHex id).1)) →
      ∃ pre x post, server = pre ++ x :: post ∧
        x.lookup "_id" = some (.objectID (primitive.ObjectIDFromHex id).1) ∧
        (updatePerson env server (request id body)).coll =
          pre ++ applySet (json.Unmarshal body {}).1.toBson x :: post ∧
        ∀ f : Field, (applySet (json.Unmarshal body {}).1.toBson x).lookup f.key =
          some ((json.Unmarshal body {}).1.get f)) ∧
    (∀ msg, body = .invalid msg → (json.Unmarshal body {}).1 = {}) := by
  have hcoll : (updatePerson env server (request id body)).coll =
      updateFirst [("_id", .objectID (primitive.ObjectIDFromHex id).1)]
        (json.Unmarshal body {}).1.toBson server := by
    rw [updatePerson_quiet hq]; rfl
  refine ⟨?_, ?_, ?_, ?_, hcoll, ?_, ?_, ?_⟩
  · intro hfresh
    have hany : server.any (fun d => d.lookup "_id" == some (.objectID env.newID)) = false := by
      simpa [List.any_eq_false] using hfresh
    rw [createPerson_quiet hq, hany]
    refine ⟨rfl, rfl, rfl, rfl, ?_⟩
    intro h
    have hlen := congrArg List.length h
    simp at hlen
  · rw [updatePerson_quiet hq]
  · rw [updatePerson_quiet hq]; rfl
  · rw [updatePerson_quiet hq]; rfl
  · intro hnone
    rw [hcoll]
    rcases updateFirst_frame [("_id", .objectID (primitive.ObjectIDFromHex id).1)]
      (json.Unmarshal body {}).1.toBson server with ⟨_, heq⟩ | ⟨pre, x, post, hsplit, hx, _⟩
    · exact heq
    · have hmem : x ∈ server := by rw [hsplit]; simp
      rw [filterMatches_id] at hx
      exact absurd (by simpa using hx) (hnone x hmem)
  · rintro ⟨d, hd, hid⟩
    rcases updateFirst_frame [("_id", .objectID (primitive.ObjectIDFromHex id).1)]
      (json.Unmarshal body {}).1.toBson server with ⟨hany, _⟩ | ⟨pre, x, post, hsplit, hx, heq⟩
    · rw [List.any_eq_false] at hany
      exact absurd (by rw [filterMatches_id, hid]; simp) (hany d hd)
    · refine ⟨pre, x, post, hsplit, ?_, ?_, fun f => lookup_applySet_toBson _ _ f⟩
      · simpa [filterMatches_id] using hx
      · rw [hcoll]; exact heq
  · intro msg hmsg; rw [hmsg]; rfl

theorem parse_error_dropped_witness :
    Env.quiet {} ∧ (json.Unmarshal noBody {}).2 ≠ none ∧
    (∀ d ∈ [sampleDoc], d.lookup "_id" ≠ some (.objectID ({} : Env).newID)) ∧
    (createPerson {} [sampleDoc] (request "" noBody)).ctx.status = 200 ∧
    (createPerson {} [sampleDoc] (request "" noBody)).coll =
      [sampleDoc] ++ [("_id", .objectID NilObjectID) :: ({} : Person).toBson] ∧
    (updatePerson {} [sampleDoc] (request sampleID.Hex noBody)).ctx.status = 200 ∧
    (updatePerson {} [sampleDoc] (request sampleID.Hex noBody)).coll =
      [[("_id", .objectID sampleID), ("firstname", .str ""), ("lastname", .str ""),
        ("email", .str ""), ("age", .int 0)]] :=
  have h := parse_error_dropped {} [sampleDoc] sampleID.Hex noBody (by decide) (by decide)
  have hc := h.1 (by decide)
  ⟨by decide, by decide, by decide, hc.2.1, hc.2.2.2.1, h.2.2.1,
    h.2.2.2.2.1.trans (by decide)⟩

/-! ## Database errors -/

/-- C8 as stated fails: when connecting fails `getPerson` ends in `log.Fatal`
with the error; it does not return, and the status is not 500.  The same holds
for a failed ping, here in `createPerson`. -/
theorem connect_error_is_fatal :
    (getPerson { connectErr := some "connection refused" } [] (request "" noBody)).exit =
      .fatal "connection refused" ∧
    (getPerson { connectErr := some "connection refused" } [] (request "" noBody)).exit ≠
      .returned ∧
    (getPerson { connectErr := some "connection refused" } [] (request "" noBody)).ctx.status ≠
      500 ∧
    (createPerson { pingErr := some "server selection timeout" } []
      (request "" (personBody "Ann" "Lee" "a@x.com" 30))).exit =
        .fatal "server selection timeout" := by
  refine ⟨by decide, by decide, by decide, by decide⟩

theorem getMongoDbCollection_down {env : Env} {e : String}
    (h : env.connectErr = some e ∨ (env.connectErr = none ∧ env.pingErr = some e))
    (server : Collection) (a b : String) : getMongoDbCollection env server a b = .fatal e := by
  rcases h with h | ⟨h1, h2⟩
  · simp [getMongoDbCollection, getMongoDbConnection, h]
  · simp [getMongoDbCollection, getMongoDbConnection, h1, h2]

theorem getMongoDbCollection_up {env : Env} (h1 : env.connectErr = none)
    (h2 : env.pingErr = none) (server : Collection) (a b : String) :
    getMongoDbCollection env server a b = .ok (server, none) := by
  simp [getMongoDbCollection, getMongoDbConnection, h1, h2]

/-- On an error of `Find`, `getPerson` has set status 500 and the error text
when the deferred `cur.Close` runs on the `nil` cursor: the handler panics
instead of returning. -/
theorem getPerson_find_error (env : Env) (server : Collection) (c : Ctx) (e : String)
    (h1 : env.connectErr = none) (h2 : env.pingErr = none) (h3 : env.opErr = some e) :
    getPerson env server c = ⟨(c.Status ststusError).Send (.text e), server, .panicked⟩ := by
  simp only [getPerson, getMongoDbCollection_up h1 h2, Collection.Find, h3, deferredClose]

/-- C8, amended.  An error while connecting (connect or ping) ends every handler
in `log.Fatal` with that error, before anything is written to the response or
the collection.  Once connected, an error returned by `InsertOne`, `UpdateOne`
or `DeleteOne` makes `createPerson`, `updatePerson` or `deletePerson` return
with status 500 and the error text as body. -/
theorem database_errors (env : Env) (server : Collection) (c : Ctx) (e : String) :
    (env.connectErr = some e ∨ (env.connectErr = none ∧ env.pingErr = some e) →
      getPerson env server c = ⟨c, server, .fatal e⟩ ∧
      createPerson env server c = ⟨c, server, .fatal e⟩ ∧
      updatePerson env server c = ⟨c, server, .fatal e⟩ ∧
      deletePerson env server c = ⟨c, server, .fatal e⟩) ∧
    (env.connectErr = none → env.pingErr = none →
      ((Collection.InsertOne env server (json.Unmarshal c.Body {}).1.toBson).2.2 = some e →
        (createPerson env server c).exit = .returned ∧
        (createPerson env server c).ctx.status = 500 ∧
        (createPerson env server c).ctx.body = .text e) ∧
      ((Collection.UpdateOne env server
          [("_id", .objectID (primitive.ObjectIDFromHex (c.Params "id")).1)]
          (json.Unmarshal c.Body {}).1.toBson).2.2 = some e →
        (updatePerson env server c).exit = .returned ∧
        (updatePerson env server c).ctx.status = 500 ∧
        (updatePerson env server c).ctx.body = .text e) ∧
      ((Collection.DeleteOne env server
          [("_id", .objectID (primitive.ObjectIDFromHex (c.Params "id")).1)]).2.2 = some e →
        (deletePerson env server c).exit = .returned ∧
        (deletePerson env server c).ctx.status = 500 ∧
        (deletePerson env server c).ctx.body = .text e)) := by
  refine ⟨?_, ?_⟩
  · intro h
    simp only [getPerson, createPerson, updatePerson, deletePerson,
      getMongoDbCollection_down h, and_self]
  · intro h1 h2
    refine ⟨?_, ?_, ?_⟩
    · intro h
      simp only [createPerson, getMongoDbCollection_up h1 h2]
      generalize Collection.InsertOne env server (json.Unmarshal c.Body {}).1.toBson = r at h ⊢
      obtain ⟨coll, res, err⟩ := r
      simp only at h
      subst h
      exact ⟨rfl, rfl, rfl⟩
    · intro h
      simp only [updatePerson, getMongoDbCollection_up h1 h2]
      generalize Collection.UpdateOne env server _ _ = r at h ⊢
      obtain ⟨coll, res, err⟩ := r
      simp only at h
      subst h
      exact ⟨rfl, rfl, rfl⟩
    · intro h
      simp only [deletePerson, getMongoDbCollection_up h1 h2]
      generalize Collection.DeleteOne env server _ = r at h ⊢
      obtain ⟨coll, res, err⟩ := r
      simp only at h
      subst h
      exact ⟨rfl, rfl, rfl⟩

theorem database_errors_witness :
    (Collection.DeleteOne { opErr := some "connection reset" } [sampleDoc]
      [("_id", .objectID (primitive.ObjectIDFromHex
        ((request sampleID.Hex noBody).Params "id")).1)]).2.2 = some "connection reset" ∧
    (deletePerson { opErr := some "connection reset" } [sampleDoc]
      (request sampleID.Hex noBody)).ctx.status = 500 :=
  ⟨by decide,
    (((database_errors { opErr := some "connection reset" } [sampleDoc]
      (request sampleID.Hex noBody) "connection reset").2 (by decide) (by decide)).2.2
        (by decide)).2.1⟩

/-! ## The identifier -/

theorem decodeField_id (f : Field) (v : Json) (p : Person) : (decodeField f v p).1._id = p._id := by
  cases f <;> cases v <;> simp only [decodeField]
  all_goals try split
  all_goals rfl

theorem decodeObject_id (members : List (String × Json)) (p : Person) (e : Option String) :
    (decodeObject members p e).1._id = p._id := by
  induction members generalizing p e with
  | nil => rfl
  | cons kv rest ih =>
    obtain ⟨k, v⟩ := kv
    cases hf : findField k with
    | none => simp only [decodeObject, hf]; exact ih p e
    | some f => simp only [decodeObject, hf]; rw [ih, decodeField_id]

theorem Unmarshal_id (body : ReqBody) : (json.Unmarshal body {}).1._id = "" := by
  cases body with
  | invalid msg => rfl
  | valid j =>
    cases j with
    | obj members => simp only [json.Unmarshal]; exact decodeObject_id members {} none
    | _ => rfl

theorem createPerson_coll (env : Env) (server : Collection) (c : Ctx) :
    (createPerson env server c).coll = server ∨
    (createPerson env server c).coll =
      server ++ [("_id", .objectID env.newID) :: (json.Unmarshal c.reqBody {}).1.toBson] := by
  cases h1 : env.connectErr with
  | some e => left; simp [createPerson, getMongoDbCollection, getMongoDbConnection, h1]
  | none =>
    cases h2 : env.pingErr with
    | some e => left; simp [createPerson, getMongoDbCollection, getMongoDbConnection, h1, h2]
    | none =>
      cases h3 : env.opErr with
      | some e =>
        left
        simp [createPerson, getMongoDbCollection, getMongoDbConnection, h1, h2, h3,
          Collection.InsertOne]
      | none =>
        rw [createPerson_quiet ⟨h1, h2, h3⟩]
        by_cases hany :
            server.any (fun d => d.lookup "_id" == some (.objectID env.newID)) = true
        · left; rw [if_pos hany]
        · right; rw [if_neg hany]

theorem updatePerson_coll (env : Env) (server : Collection) (c : Ctx) :
    (updatePerson env server c).coll = server ∨
    (updatePerson env server c).coll =
      updateFirst [("_id", .objectID (primitive.ObjectIDFromHex c.id).1)]
        (json.Unmarshal c.reqBody {}).1.toBson server := by
  cases h1 : env.connectErr with
  | some e => left; simp [updatePerson, getMongoDbCollection, getMongoDbConnection, h1]
  | none =>
    cases h2 : env.pingErr with
    | some e => left; simp [updatePerson, getMongoDbCollection, getMongoDbConnection, h1, h2]
    | none =>
      cases h3 : env.opErr with
      | some e =>
        left
        simp [updatePerson, getMongoDbCollection, getMongoDbConnection, h1, h2, h3,
          Collection.UpdateOne]
      | none => right; rw [updatePerson_quiet ⟨h1, h2, h3⟩]

theorem deletePerson_coll (env : Env) (server : Collection) (c : Ctx) :
    (deletePerson env server c).coll = server ∨
    (deletePerson env server c).coll =
      deleteFirst [("_id", .objectID (primitive.ObjectIDFromHex c.id).1)] server := by
  cases h1 : env.connectErr with
  | some e => left; simp [deletePerson, getMongoDbCollection, getMongoDbConnection, h1]
  | none =>
    cases h2 : env.pingErr with
    | some e => left; simp [deletePerson, getMongoDbCollection, getMongoDbConnection, h1, h2]
    | none =>
      cases h3 : env.opErr with
      | some e =>
        left
        simp [deletePerson, getMongoDbCollection, getMongoDbConnection, h1, h2, h3,
          Collection.DeleteOne]
      | none => right; rw [deletePerson_quiet ⟨h1, h2, h3⟩]

theorem ids_updateFirst (filter set : bson.M) (coll : Collection)
    (hset : ∀ x : bson.M, (applySet set x).lookup "_id" = x.lookup "_id") :
    (updateFirst filter set coll).map (fun d => d.lookup "_id") =
      coll.map (fun d => d.lookup "_id") := by
  induction coll with
  | nil => rfl
  | cons d rest ih =>
    by_cases hm : filterMatches filter d = true
    · simp [updateFirst, hm, hset]
    · simp [updateFirst, hm, ih]

/-- C9 (the identifier is assigned by the store).  For every request body, in
every environment: the keys `_id` and `id` name no field that `encoding/json`
decodes, the unexported `_id` of the parsed `Person` stays empty, and the
document written for the `Person` has no `_id`.  So `createPerson` either
leaves the collection as it is or appends the parsed record under the
generated identifier, and `updatePerson` leaves the `_id` of every stored
document, in order, as it was. -/
theorem identifier_from_store (env : Env) (server : Collection) (id : String) (body : ReqBody) :
    findField "_id" = none ∧ findField "id" = none ∧
    (json.Unmarshal body {}).1._id = "" ∧
    (json.Unmarshal body {}).1.toBson.lookup "_id" = none ∧
    ((createPerson env server (request id body)).coll = server ∨
      (createPerson env server (request id body)).coll =
        server ++ [("_id", .objectID env.newID) :: (json.Unmarshal body {}).1.toBson]) ∧
    (updatePerson env server (request id body)).coll.map (fun d => d.lookup "_id") =
      server.map (fun d => d.lookup "_id") := by
  refine ⟨by decide, by decide, Unmarshal_id body, toBson_lookup_id _,
    createPerson_coll env server (request id body), ?_⟩
  rcases updatePerson_coll env server (request id body) with h | h
  · rw [h]
  · rw [h]
    exact ids_updateFirst _ _ _ (lookup_id_applySet_toBson _)

/-! ## Frame of update and delete -/

theorem deleteFirst_frame (filter : bson.M) (coll : Collection) :
    (coll.any (filterMatches filter) = false ∧ deleteFirst filter coll = coll) ∨
    ∃ pre d post, coll = pre ++ d :: post ∧ filterMatches filter d = true ∧
      deleteFirst filter coll = pre ++ post := by
  induction coll with
  | nil => left; exact ⟨rfl, rfl⟩
  | cons x rest ih =>
    by_cases hm : filterMatches filter x = true
    · right
      exact ⟨[], x, rest, rfl, hm, by simp [deleteFirst, hm]⟩
    · rcases ih with ⟨hany, heq⟩ | ⟨pre, d, post, hsplit, hd, heq⟩
      · left
        exact ⟨by simp [List.any_cons, hm, hany], by simp [deleteFirst, hm, heq]⟩
      · right
        exact ⟨x :: pre, d, post, by rw [hsplit]; rfl, hd, by simp [deleteFirst, hm, heq]⟩

/-- C10 (frame of update and delete).  For every collection, path parameter and
body, in every environment: `updatePerson` leaves the collection as it is or
replaces exactly one document, one whose `_id` is the object identifier parsed
from the path (`NilObjectID` when the parameter is malformed), by the result of
the `$set`, which keeps its `_id`; `deletePerson` leaves the collection as it is
or removes exactly one such document; all other documents stay in place and
none is added.  When the database reports no error and no document carries
that identifier, both leave the collection unchanged and return 200 with the
result of the driver, all counts zero. -/
theorem update_delete_frame (env : Env) (server : Collection) (id : String) (body b : ReqBody) :
    ((primitive.ObjectIDFromHex id).2 ≠ none → (primitive.ObjectIDFromHex id).1 = NilObjectID) ∧
    ((updatePerson env server (request id body)).coll = server ∨
      ∃ pre d post, server = pre ++ d :: post ∧
        d.lookup "_id" = some (.objectID (primitive.ObjectIDFromHex id).1) ∧
        (updatePerson env server (request id body)).coll =
          pre ++ applySet (json.Unmarshal body {}).1.toBson d :: post ∧
        (applySet (json.Unmarshal body {}).1.toBson d).lookup "_id" = d.lookup "_id") ∧
    ((deletePerson env server (request id b)).coll = server ∨
      ∃ pre d post, server = pre ++ d :: post ∧
        d.lookup "_id" = some (.objectID (primitive.ObjectIDFromHex id).1) ∧
        (deletePerson env server (request id b)).coll = pre ++ post) ∧
    (env.quiet →
      (∀ d ∈ server, d.lookup "_id" ≠ some (.objectID (primitive.ObjectIDFromHex id).1)) →
      (updatePerson env server (request id body)).coll = server ∧
      (updatePerson env server (request id body)).exit = .returned ∧
      (updatePerson env server (request id body)).ctx.status = 200 ∧
      (updatePerson env server (request id body)).ctx.body =
        .json (.obj [("MatchedCount", .int 0), ("ModifiedCount", .int 0),
          ("UpsertedCount", .int 0), ("UpsertedID", .null)]) ∧
      (deletePerson env server (request id b)).coll = server ∧
      (deletePerson env server (request id b)).exit = .returned ∧
      (deletePerson env server (request id b)).ctx.status = 200 ∧
      (deletePerson env server (request id b)).ctx.body =
        .json (.obj [("DeletedCount", .int 0)])) := by
  refine ⟨ObjectIDFromHex_malformed id, ?_, ?_, ?_⟩
  · rcases updatePerson_coll env server (request id body) with h | h
    · exact Or.inl h
    · rcases updateFirst_frame [("_id", .objectID (primitive.ObjectIDFromHex id).1)]
        (json.Unmarshal body {}).1.toBson server with ⟨_, heq⟩ | ⟨pre, d, post, hsplit, hd, heq⟩
      · left; rw [h]; exact heq
      · right
        refine ⟨pre, d, post, hsplit, ?_, ?_, lookup_id_applySet_toBson _ _⟩
        · simpa [filterMatches_id] using hd
        · rw [h]; exact heq
  · rcases deletePerson_coll env server (request id b) with h | h
    · exact Or.inl h
    · rcases deleteFirst_frame [("_id", .objectID (primitive.ObjectIDFromHex id).1)] server with
        ⟨_, heq⟩ | ⟨pre, d, post, hsplit, hd, heq⟩
      · left; rw [h]; exact heq
      · right
        refine ⟨pre, d, post, hsplit, ?_, ?_⟩
        · simpa [filterMatches_id] using hd
        · rw [h]; exact heq
  · intro hq hnone
    have hany : server.any
        (filterMatches [("_id", .objectID (primitive.ObjectIDFromHex id).1)]) = false := by
      rw [List.any_eq_false]
      intro d hd
      rw [filterMatches_id]
      simpa using hnone d hd
    have hupd : updateFirst [("_id", .objectID (primitive.ObjectIDFromHex id).1)]
        (json.Unmarshal body {}).1.toBson server = server := by
      rcases updateFirst_frame [("_id", .objectID (primitive.ObjectIDFromHex id).1)]
        (json.Unmarshal body {}).1.toBson server with ⟨_, heq⟩ | ⟨pre, d, post, hsplit, hd, _⟩
      · exact heq
      · rw [List.any_eq_false] at hany
        exact absurd hd (hany d (by rw [hsplit]; simp))
    have hdel : deleteFirst [("_id", .objectID (primitive.ObjectIDFromHex id).1)] server
        = server := by
      rcases deleteFirst_frame [("_id", .objectID (primitive.ObjectIDFromHex id).1)] server with
        ⟨_, heq⟩ | ⟨pre, d, post, hsplit, hd, _⟩
      · exact heq
      · rw [List.any_eq_false] at hany
        exact absurd hd (hany d (by rw [hsplit]; simp))
    rw [updatePerson_quiet hq, deletePerson_quiet hq]
    have hreq : ∀ x, (request id x).id = id := fun _ => rfl
    have hbody : (request id body).reqBody = body := rfl
    simp only [hreq, hbody, hany, hupd, hdel, Bool.false_eq_true, if_false, if_true]
    exact ⟨trivial, trivial, rfl, rfl, trivial, trivial, rfl, rfl⟩

theorem update_delete_frame_witness :
    (primitive.ObjectIDFromHex "xyz").2 ≠ none ∧ Env.quiet {} ∧
    (updatePerson {} [sampleDoc] (request "xyz" (personBody "Bo" "Ek" "b@x.com" 41))).coll =
      [sampleDoc] ∧
    (deletePerson {} [sampleDoc] (request "xyz" noBody)).ctx.status = 200 :=
  have h := update_delete_frame {} [sampleDoc] "xyz" (personBody "Bo" "Ek" "b@x.com" 41) noBody
  have h4 := h.2.2.2 (by decide) (by rw [h.1 (by decide)]; decide)
  ⟨by decide, by decide, h4.1, h4.2.2.2.2.2.2.1⟩

end PersonApi
